import Mathlib

/-!
Verification development for the portfolio-visualizer valuation engine
(`backend/utils/indicators.py`, `backend/utils/enhanced_indicators.py`,
`backend/utils/data_fetcher.py`).

Dates are modelled as day numbers (`ℤ`); a date string received from the
caller is either a parseable day or an unparseable string
(`DateStr.invalid`), mirroring `datetime.fromisoformat` / `pd.date_range`
raising on bad input.  Money amounts and prices are `ℚ`; real-valued
library math (powers, square roots, logarithms) is `ℝ`.
-/

/-- A date argument as received over the API: either a parseable calendar
day (numbered as an integer) or an unparseable string. -/
inductive DateStr where
  | valid : ℤ → DateStr
  | invalid : String → DateStr
deriving DecidableEq, Repr

/-- Models `datetime.fromisoformat` / date parsing inside `pd.date_range`:
succeeds exactly on parseable dates. -/
def DateStr.parse : DateStr → Option ℤ
  | .valid d => some d
  | .invalid _ => none

/-- A transaction record as produced by the request boundary
(`app.py`, `Transaction` model): symbol, display name, quantity,
buy date, buy price. -/
structure Transaction where
  symbol : String
  name : String
  quantity : ℚ
  buyDate : DateStr
  buyPrice : ℚ
deriving DecidableEq, Repr

/-- One row of the valuation frame built by `calculate_portfolio_value`:
its `Date` value, its `TotalValue` cell and its per-symbol cells
(a total function on column names; columns outside the frame's symbol
list are identically `0`). -/
structure Row where
  date : DateStr
  total : ℚ
  cell : String → ℚ

/-- The `DataFrame` returned by `calculate_portfolio_value`
(`indicators.py` lines 27-112): the per-symbol column names and the rows. -/
structure Frame where
  symbols : List String
  rows : List Row

/-- `pd.date_range(start, end)`: every calendar day from `s` to `e`
inclusive; empty when `e < s`. -/
def date_range (s e : ℤ) : List ℤ :=
  (List.range (e - s + 1).toNat).map (fun k => s + (k : ℤ))

/-- `find_closest_trading_date` (`indicators.py` lines 114-132): the last
entry of the price series whose date is `≤ d`, together with its closing
price; `none` when no such entry exists. -/
def find_closest_trading_date (series : List (ℤ × ℚ)) (d : ℤ) : Option (ℤ × ℚ) :=
  (series.filter (fun p => decide (p.1 ≤ d))).getLast?

/-- The per-date body of the transaction loop of `calculate_portfolio_value`
(`indicators.py` lines 70-94): for a row whose date is on or after the
transaction's buy date, resolve the closest trading date and add
`quantity × close` to both the transaction's symbol cell and `TotalValue`. -/
def applyTxRow (series : List (ℤ × ℚ)) (tx : Transaction) (bd : ℤ) (r : Row) : Row :=
  match r.date with
  | .valid d =>
    if bd ≤ d then
      match find_closest_trading_date series d with
      | some p =>
        let v := tx.quantity * p.2
        { r with
          total := r.total + v,
          cell := fun s => if s = tx.symbol then r.cell s + v else r.cell s }
      | none => r
    else r
  | .invalid _ => r

/-- One iteration of the outer transaction loop (`indicators.py` lines
54-94): a transaction whose symbol has no downloaded data is skipped
(lines 59-61); otherwise every row is updated via `applyTxRow`. -/
def applyTx (data : String → List (ℤ × ℚ)) (rows : List Row)
    (tx : Transaction) (bd : ℤ) : List Row :=
  if data tx.symbol = [] then rows
  else rows.map (applyTxRow (data tx.symbol) tx bd)

/-- The `except` fallback of `calculate_portfolio_value` (`indicators.py`
lines 106-112): a one-row frame whose `Date` is the start date as given,
whose `TotalValue` is `0.0`, with a zero column per distinct transaction
symbol. -/
def fallback_frame (txs : List Transaction) (sd : DateStr) : Frame :=
  ⟨(txs.map (·.symbol)).dedup, [⟨sd, 0, fun _ => 0⟩]⟩

/-- `calculate_portfolio_value` (`indicators.py` lines 15-112).  The price
provider `data` models the per-symbol `yf.download` results already
gathered in `stock_data` (an empty list models "no data" / failed fetch).
If the start date, end date, or any transaction's buy date fails to parse,
the exception reaches the outer `try` and the fallback frame is returned;
otherwise the frame is built over every calendar day of the range with one
zero-initialised column per distinct symbol, and each transaction's value
is accumulated into its symbol column and `TotalValue`. -/
def calculate_portfolio_value (txs : List Transaction) (sd ed : DateStr)
    (data : String → List (ℤ × ℚ)) : Frame :=
  match sd.parse, ed.parse, txs.mapM (fun tx => tx.buyDate.parse) with
  | some s, some e, some bds =>
    let symbols := (txs.map (·.symbol)).dedup
    let init : List Row := (date_range s e).map (fun d => ⟨DateStr.valid d, 0, fun _ => 0⟩)
    ⟨symbols, (txs.zip bds).foldl (fun rs p => applyTx data rs p.1 p.2) init⟩
  | _, _, _ => fallback_frame txs sd

/-- The download loop of `calculate_portfolio_value` (`indicators.py`
lines 42-51): one `yf.download(symbol, start=start_date, end=end_date)`
request per distinct transaction symbol, with the caller-supplied range
passed through unchanged. -/
def downloads (txs : List Transaction) (sd ed : DateStr) :
    List (String × DateStr × DateStr) :=
  ((txs.map (·.symbol)).dedup).map (fun s => (s, sd, ed))

/-- The request range used by `get_stock_data` (`data_fetcher.py` lines
54-60): the start date is moved back by 5 days before downloading; the
end date is passed through. -/
def get_stock_data_request (s e : ℤ) : ℤ × ℤ := (s - 5, e)

/-- An entry value of the indicator report: a formatted percentage, a
formatted numeric figure, an explicit not-available sentinel, an
informational message, a weight map, or plain text.  `taggedFigure`
models a formatted number followed by a parenthesised tag, such as
the literal `"1.00 (单一投资)"`. -/
inductive IndVal where
  | pct : ℝ → IndVal
  | figure : ℝ → IndVal
  | taggedFigure : ℝ → String → IndVal
  | na : String → IndVal
  | info : String → IndVal
  | weightMap : List (String × ℚ) → IndVal
  | text : String → IndVal

/-- The daily-return computation of `calculate_indicators`
(`indicators.py` lines 196-209): for frames with more than one row,
`np.where(daily_values[:-1] > 0)` selects the index pairs whose previous
value is positive, and the simple returns are formed over exactly those
pairs, in index order. -/
def daily_returns_calc (vals : List ℚ) : List ℚ :=
  if 1 < vals.length then
    ((List.range (vals.length - 1)).filter (fun i => decide (0 < vals.getD i 0))).map
      (fun i => (vals.getD (i + 1) 0 - vals.getD i 0) / vals.getD i 0)
  else []

/-- The daily-return series as the specification words it: over
consecutive pairs of the series, keep `(next − prev)/prev` exactly when
`prev > 0`, and drop the pair otherwise. -/
def daily_returns_spec (vals : List ℚ) : List ℚ :=
  (vals.zip vals.tail).filterMap
    (fun p => if 0 < p.1 then some ((p.2 - p.1) / p.1) else none)

/-- The initial-investment computation of `calculate_indicators`
(`indicators.py` lines 177-182): `Σ quantity × buy_price`, floored to
`1.0` when the sum is `≤ 0`. -/
def initial_investment_calc (txs : List Transaction) : ℚ :=
  let s := (txs.map (fun tx => tx.quantity * tx.buyPrice)).sum
  if s ≤ 0 then 1 else s

/-- The final-value computation of `calculate_indicators`
(`indicators.py` lines 184-193): the last total value, clamped to `0`
when negative, and `0` for an empty series. -/
def final_value_calc (vals : List ℚ) : ℚ :=
  if 0 < vals.length then
    let f := (vals.getLast?).getD 0
    if f < 0 then 0 else f
  else 0

/-- The total-return entry of the report (`indicators.py` lines 153-155
and 211-219): `none` models the early return for frames with fewer than
2 rows; otherwise the entry keyed `总收益率` is a numeric percentage when
`initial_investment > 0` and the `N/A` sentinel otherwise. -/
def total_return_in_report (vals : List ℚ) (txs : List Transaction) :
    Option (String × IndVal) :=
  if vals.length < 2 then none
  else
    let initial := initial_investment_calc txs
    some (if 0 < initial then
            ("总收益率", .pct (((final_value_calc vals - initial) / initial * 100 : ℚ) : ℝ))
          else ("总收益率", .na "N/A (初始投资为零)"))

/-- The annualized-return computation of `calculate_indicators`
(`indicators.py` lines 221-241): under the guard
`days > 0 and initial_investment > 0 and final_value > 0`, the compound
formula is used when `final_value > initial_investment` and the simple
pro-rated formula otherwise; outside the guard the entry is `N/A` and
the `annualized_return` variable is `0`.  Returns the report entry
together with the `annualized_return` value carried to later
indicators. -/
noncomputable def annualized_calc (days : ℤ) (initial final : ℚ) : IndVal × ℝ :=
  if 0 < days ∧ 0 < initial ∧ 0 < final then
    let years : ℝ := (days : ℝ) / 365
    if initial < final then
      let ar : ℝ := (((final : ℝ) / (initial : ℝ)) ^ (1 / years) - 1) * 100
      (.pct ar, ar)
    else
      let ar : ℝ := (((final - initial) / initial : ℚ) : ℝ) * (365 / (days : ℝ)) * 100
      (.pct ar, ar)
  else (.na "N/A", 0)

/-- `calculate_max_drawdown` (`indicators.py` lines 437-463): running-peak
scan of the value series; `0.0` for series shorter than 2. -/
def calculate_max_drawdown (vals : List ℚ) : ℚ :=
  if vals.length < 2 then 0
  else
    (vals.foldl
      (fun (st : ℚ × ℚ) v =>
        let maxSoFar := if st.1 < v then v else st.1
        let md := if 0 < maxSoFar then max st.2 ((maxSoFar - v) / maxSoFar) else st.2
        (maxSoFar, md))
      ((vals.headD 0), 0)).2

/-- The Calmar entry of the report (`indicators.py` lines 349-354):
the absolute quotient when `max_drawdown > 0 and annualized_return != 0`,
and the `N/A` sentinel otherwise.  `maxDD` is the max drawdown in percent
(already multiplied by 100), as at line 250. -/
noncomputable def calmar_entry (maxDD : ℚ) (ann : ℝ) : IndVal :=
  if 0 < maxDD ∧ ann ≠ 0 then .figure |ann / (maxDD : ℝ)| else .na "N/A"

/-- The data flow feeding the Calmar entry inside `calculate_indicators`:
`none` models the early return for frames with fewer than 2 rows; when
the daily-return array is non-empty the risk block runs (`indicators.py`
line 244) with `max_drawdown` from line 250 and `annualized_return` from
lines 226-241; when it is empty the entry is the `N/A` sentinel of line
387. -/
noncomputable def calmar_in_report (vals : List ℚ) (days : ℤ)
    (txs : List Transaction) : Option IndVal :=
  if vals.length < 2 then none
  else
    let dr := daily_returns_calc vals
    if 0 < dr.length then
      let maxDD := calculate_max_drawdown vals * 100
      let ann := (annualized_calc days (initial_investment_calc txs) (final_value_calc vals)).2
      some (calmar_entry maxDD ann)
    else some (.na "N/A")

/-- `calculate_gini_coefficient` (`indicators.py` lines 489-514):
weights are divided by 100 and sorted ascending; `1.0` for lists of
length `≤ 1`; otherwise one minus twice the Lorenz-curve area. -/
def calculate_gini_coefficient (weights : List ℚ) : ℚ :=
  let w := (weights.map (· / 100)).mergeSort (fun a b => decide (a ≤ b))
  let n := w.length
  if n ≤ 1 then 1
  else
    let area := ((w.enum.map (fun p => ((p.1 : ℚ) + 1) * p.2)).sum) / ((n : ℚ) * w.sum)
    1 - 2 * area

/-- `calculate_diversity_score` (`indicators.py` lines 517-549): weights
are divided by 100 and zero weights filtered out; `0.0` for `≤ 1`
remaining weights; otherwise Shannon entropy normalised by `log n`. -/
noncomputable def calculate_diversity_score (weights : List ℚ) : ℝ :=
  let w : List ℚ := (weights.map (fun x => x / 100)).filter (fun x => decide (0 < x))
  if w.length ≤ 1 then 0
  else
    let entropy := -((w.map (fun x => (x : ℝ) * Real.log (x : ℝ))).sum)
    let maxEntropy := Real.log (w.length : ℝ)
    if 0 < maxEntropy then entropy / maxEntropy else 0

/-- Python's `max(items, key=value)` over symbol/value pairs: the first
pair attaining the maximal value; `none` on an empty list. -/
def maxByValue (l : List (String × ℚ)) : Option (String × ℚ) :=
  match l with
  | [] => none
  | x :: xs => some (xs.foldl (fun best p => if best.2 < p.2 then p else best) x)

/-- The portfolio-analysis section of `calculate_indicators`
(`indicators.py` lines 390-432).  `latest` is the per-symbol last value
(one entry per symbol column of the frame) and `final` the final total
value.  When `final > 0` and there is at least one symbol: weights in
percent; Gini and diversity computed when there is more than one weight
and the literal single-investment sentinels `1.00 (单一投资)` /
`0.00 (单一投资)` otherwise; then the largest contributor.  Otherwise the
zero-weight / `N/A` branch of lines 427-431. -/
noncomputable def concentration_entries (latest : List (String × ℚ)) (final : ℚ) :
    List (String × IndVal) :=
  if 0 < final ∧ latest ≠ [] then
    let weights := latest.map (fun p => (p.1, p.2 / final * 100))
    let base := [("股票权重", IndVal.weightMap weights)]
    let conc :=
      if 1 < weights.length then
        [("投资集中度(基尼系数)", IndVal.figure ((calculate_gini_coefficient (weights.map Prod.snd) : ℚ) : ℝ)),
         ("投资多样性(熵值)", IndVal.figure (calculate_diversity_score (weights.map Prod.snd)))]
      else
        [("投资集中度(基尼系数)", IndVal.taggedFigure 1 "单一投资"),
         ("投资多样性(熵值)", IndVal.taggedFigure 0 "单一投资")]
    let contrib :=
      match maxByValue weights with
      | some m => [("最大贡献", IndVal.text m.1)]
      | none => [("最大贡献", IndVal.text "无")]
    base ++ conc ++ contrib
  else
    [("股票权重", IndVal.weightMap (latest.map (fun p => (p.1, 0)))),
     ("最大贡献", IndVal.text "无 (投资组合价值为0)"),
     ("投资集中度(基尼系数)", IndVal.na "N/A"),
     ("投资多样性(熵值)", IndVal.na "N/A")]

/-- The arithmetic mean used by `pandas` rolling means (`np`/`pd` mean of
a window); `0` for the empty list (never hit at valid window positions). -/
def qmean (l : List ℚ) : ℚ := l.sum / (l.length : ℚ)

/-- The sample variance (`ddof = 1`, as `pandas` `rolling(...).std()`)
of a window. -/
def sampleVar (l : List ℚ) : ℚ :=
  ((l.map (fun x => (x - qmean l) ^ 2)).sum) / ((l.length : ℚ) - 1)

/-- The trailing window of length `w` ending at position `i` of the
series. -/
def windowAt (dr : List ℚ) (w i : ℕ) : List ℚ := (dr.drop (i + 1 - w)).take w

/-- The rolling sample standard deviation at position `i`, as produced by
`returns_series.rolling(window=w).std()` at a valid position. -/
noncomputable def rollingStd (dr : List ℚ) (w i : ℕ) : ℝ :=
  Real.sqrt ((sampleVar (windowAt dr w i) : ℚ) : ℝ)

/-- `pandas` `Series.idxmax` over a set of positions: the first position
attaining the maximum of `f`; `none` on no positions. -/
noncomputable def idxmaxAt (f : ℕ → ℝ) : List ℕ → Option ℕ
  | [] => none
  | i :: is => some (is.foldl (fun best j => if f best < f j then j else best) i)

/-- `pandas` `Series.idxmin` over a set of positions: the first position
attaining the minimum of `f`; `none` on no positions (where `pandas`
raises `ValueError`). -/
noncomputable def idxminAt (f : ℕ → ℝ) : List ℕ → Option ℕ
  | [] => none
  | i :: is => some (is.foldl (fun best j => if f j < f best then j else best) i)

/-- `calculate_rolling_metrics` (`indicators.py` lines 601-643).  Returns
the insufficient-data marker when the series is shorter than the window
(lines 617-619).  Otherwise the latest rolling annualized return and
volatility are emitted, `idxmax` is taken over the rolling stds and
`idxmin` over the positive rolling stds — the latter raising `ValueError`
(modelled as `Except.error`) when no rolling std is positive (line 633) —
and the historical max/min volatility entries are appended. -/
noncomputable def calculate_rolling_metrics (dr : List ℚ) (w : ℕ) :
    Except String (List (String × IndVal)) :=
  if dr.length < w then
    .ok [(toString w ++ "日滚动分析", .info "数据点不足")]
  else
    let valid := List.range' (w - 1) (dr.length - w + 1)
    let latest := dr.length - 1
    let base : List (String × IndVal) :=
      [(toString w ++ "日滚动年化收益", .pct ((qmean (windowAt dr w latest) * 252 * 100 : ℚ) : ℝ)),
       (toString w ++ "日滚动年化波动率", .pct (rollingStd dr w latest * Real.sqrt 252 * 100))]
    let maxIdx := idxmaxAt (rollingStd dr w) valid
    let posValid := valid.filter (fun i => decide (0 < rollingStd dr w i))
    match idxminAt (rollingStd dr w) posValid with
    | none => .error "attempt to get argmin of an empty sequence"
    | some mi =>
      let withMax :=
        match maxIdx with
        | some ma => base ++ [(toString w ++ "日最高历史波动率", .pct (rollingStd dr w ma * Real.sqrt 252 * 100))]
        | none => base
      .ok (withMax ++ [(toString w ++ "日最低历史波动率", .pct (rollingStd dr w mi * Real.sqrt 252 * 100))])

/-- The rolling-analysis invocation sites of `calculate_indicators`
(`indicators.py` lines 360-367): `calculate_rolling_metrics` is called at
window 20 when the return series has at least 20 points and additionally
at window 60 when it has at least 60; an error from either call
propagates (losing the report). -/
noncomputable def rolling_section (dr : List ℚ) : Except String (List (String × IndVal)) :=
  if 20 ≤ dr.length then
    match calculate_rolling_metrics dr 20 with
    | .error e => .error e
    | .ok r20 =>
      if 60 ≤ dr.length then
        match calculate_rolling_metrics dr 60 with
        | .error e => .error e
        | .ok r60 => .ok (r20 ++ r60)
      else .ok r20
  else .ok []

/-- One recorded drawdown episode of
`calculate_detailed_drawdown_metrics`: start index, end index and
maximum depth. -/
structure DDPeriod where
  startIdx : ℕ
  endIdx : ℕ
  depth : ℚ
deriving DecidableEq, Repr

/-- Python's `max` over a list of rationals (first element as the seed;
the lists built by the drawdown analyzer are non-empty). -/
def pyMax (l : List ℚ) : ℚ := l.foldl max (l.headD 0)

/-- The depth recorded for an episode spanning indices `a..b`
(`enhanced_indicators.py` lines 341 and 350):
`max((peak - values[j]) / peak for j in range(a, b+1))`. -/
def depth_of (vals : List ℚ) (peak : ℚ) (a b : ℕ) : ℚ :=
  pyMax ((List.range' a (b + 1 - a)).map (fun j => (peak - vals.getD j 0) / peak))

/-- The loop state of the episode scanner of
`calculate_detailed_drawdown_metrics` (`enhanced_indicators.py` lines
317-343): running peak, the start index of the currently open episode
(if any), the recorded episodes, and the accumulated drawdown samples. -/
structure DDState where
  peak : ℚ
  ddStart : Option ℕ
  periods : List DDPeriod
  drawdowns : List ℚ

/-- One iteration of the episode scanner (`enhanced_indicators.py` lines
322-343): a value above the running peak raises the peak and clears any
open episode without recording it; otherwise, when the peak is positive,
the drawdown sample is appended, an episode opens at the current index
when none is open and the drawdown exceeds `0.02`, and an open episode is
recorded and closed when the drawdown is below `0.005`. -/
def ddStep (vals : List ℚ) (s : DDState) (i : ℕ) (value : ℚ) : DDState :=
  if s.peak < value then { s with peak := value, ddStart := none }
  else if 0 < s.peak then
    let cd := (s.peak - value) / s.peak
    let s1 := { s with drawdowns := s.drawdowns ++ [cd] }
    let s2 :=
      match s1.ddStart with
      | none => if 1 / 50 < cd then { s1 with ddStart := some i } else s1
      | some _ => s1
    match s2.ddStart with
    | some st =>
      if cd < 1 / 200 then
        { s2 with periods := s2.periods ++ [⟨st, i, depth_of vals s2.peak st i⟩],
                  ddStart := none }
      else s2
    | none => s2
  else s

/-- The full scan of the value series (`enhanced_indicators.py` lines
317-343), starting from `peak = portfolio_values[0]` with no open
episode. -/
def ddScan (vals : List ℚ) : DDState :=
  (vals.enum).foldl (fun s p => ddStep vals s p.1 p.2) ⟨vals.headD 0, none, [], []⟩

/-- The episode list produced by `calculate_detailed_drawdown_metrics`
(`enhanced_indicators.py` lines 313-351): `none` models the
insufficient-data early return for series shorter than 5; an episode
still open after the scan is force-closed at the last index (lines
346-351). -/
def calculate_detailed_drawdown_periods (vals : List ℚ) : Option (List DDPeriod) :=
  if vals.length < 5 then none
  else
    let s := ddScan vals
    some (match s.ddStart with
          | some st => s.periods ++ [⟨st, vals.length - 1, depth_of vals s.peak st (vals.length - 1)⟩]
          | none => s.periods)

/-- The claim-side state of the drawdown state machine as §4.4 of the
specification words it, additionally tracking the maximum drawdown seen
inside the currently open episode. -/
structure DDClaimState where
  peak : ℚ
  ddStart : Option ℕ
  curMax : ℚ
  periods : List DDPeriod

/-- One step of the drawdown state machine as the claim words it: the
running peak is updated first, the drawdown fraction is taken against it,
an episode opens when the fraction exceeds `0.02` and none is open, and
every open episode closes — recording its maximum depth and start/end
indices — as soon as the fraction falls below `0.005`. -/
def ddStepClaim (s : DDClaimState) (i : ℕ) (value : ℚ) : DDClaimState :=
  let peak := max s.peak value
  let cd := if 0 < peak then (peak - value) / peak else 0
  let s0 := { s with peak := peak }
  let s1 :=
    match s0.ddStart with
    | none => if 1 / 50 < cd then { s0 with ddStart := some i, curMax := cd } else s0
    | some _ => { s0 with curMax := max s0.curMax cd }
  match s1.ddStart with
  | some st =>
    if cd < 1 / 200 then
      { s1 with periods := s1.periods ++ [⟨st, i, s1.curMax⟩], ddStart := none, curMax := 0 }
    else s1
  | none => s1

/-- The episode list the claim predicts: run the claim-side machine and
force-close any episode still open at the last index. -/
def claim_drawdown_periods (vals : List ℚ) : List DDPeriod :=
  let s := (vals.enum).foldl (fun s p => ddStepClaim s p.1 p.2) ⟨vals.headD 0, none, 0, []⟩
  match s.ddStart with
  | some st => s.periods ++ [⟨st, vals.length - 1, s.curMax⟩]
  | none => s.periods

/-! ## Helper lemmas -/

/-- The floored initial investment is always positive. -/
theorem initial_investment_calc_pos (txs : List Transaction) :
    0 < initial_investment_calc txs := by
  simp only [initial_investment_calc]
  split
  · norm_num
  · next h => exact lt_of_not_le h

/-- The drawdown accumulator of `calculate_max_drawdown` keeps its second
component non-negative. -/
theorem drawdown_fold_nonneg (l : List ℚ) :
    ∀ st : ℚ × ℚ, 0 ≤ st.2 →
      0 ≤ (l.foldl
        (fun (st : ℚ × ℚ) v =>
          let maxSoFar := if st.1 < v then v else st.1
          let md := if 0 < maxSoFar then max st.2 ((maxSoFar - v) / maxSoFar) else st.2
          (maxSoFar, md)) st).2 := by
  induction l with
  | nil => exact fun st h => h
  | cons a t ih =>
    intro st h
    rw [List.foldl_cons]
    apply ih
    show 0 ≤ (if 0 < (if st.1 < a then a else st.1) then
        max st.2 (((if st.1 < a then a else st.1) - a) / (if st.1 < a then a else st.1))
      else st.2)
    by_cases hc : 0 < (if st.1 < a then a else st.1)
    · rw [if_pos hc]
      exact le_trans h (le_max_left _ _)
    · rw [if_neg hc]
      exact h

/-- The running-peak max-drawdown scan never produces a negative value. -/
theorem calculate_max_drawdown_nonneg (vals : List ℚ) :
    0 ≤ calculate_max_drawdown vals := by
  unfold calculate_max_drawdown
  split
  · exact le_refl 0
  · exact drawdown_fold_nonneg vals _ (le_refl 0)

/-! ## C10: the total-return entry is always numeric -/

/-- C10: the initial investment is floored to `1.0` whenever
`Σ quantity × buy_price ≤ 0`, so the guard `initial_investment > 0`
protecting the total-return division is always true and, for every frame
with at least 2 rows, the report's total-return entry is a numeric
percentage. -/
theorem C10_total_return_numeric (txs : List Transaction) (vals : List ℚ)
    (h : 2 ≤ vals.length) :
    0 < initial_investment_calc txs ∧
    total_return_in_report vals txs =
      some ("总收益率",
        .pct (((final_value_calc vals - initial_investment_calc txs) /
               initial_investment_calc txs * 100 : ℚ) : ℝ)) := by
  refine ⟨initial_investment_calc_pos txs, ?_⟩
  simp only [total_return_in_report]
  rw [if_neg (by omega), if_pos (initial_investment_calc_pos txs)]

/-- Witness for C10 at a concrete input. -/
theorem C10_total_return_numeric_witness :
    0 < initial_investment_calc [] ∧
    total_return_in_report [0, 0] [] =
      some ("总收益率",
        .pct (((final_value_calc [0, 0] - initial_investment_calc []) /
               initial_investment_calc [] * 100 : ℚ) : ℝ)) :=
  C10_total_return_numeric [] [0, 0] (by norm_num)

/-! ## C3: download requests of the valuation aggregator -/

/-- C3 counterexample: for a one-transaction portfolio over the range
`[100, 110]`, `calculate_portfolio_value` issues its single request for
the symbol over `[100, 110]` itself, not over `[100 − 5, 110]` as the
claim states. -/
theorem C3_counterexample :
    downloads [⟨"AAPL", "Apple", 10, DateStr.valid 0, 100⟩]
        (DateStr.valid 100) (DateStr.valid 110) =
      [("AAPL", DateStr.valid 100, DateStr.valid 110)] ∧
    (DateStr.valid 100, DateStr.valid 110) ≠
      (DateStr.valid (100 - 5), DateStr.valid 110) := by
  constructor
  · rfl
  · decide

/-- C3 amended: each distinct transaction symbol is requested exactly
once, over `[start_date, end_date]` unchanged; the 5-day lookback exists
only in `get_stock_data` of the data fetcher, which the valuation path
does not call. -/
theorem C3_amended (txs : List Transaction) (sd ed : DateStr) (sym : String)
    (hmem : sym ∈ txs.map (·.symbol)) :
    (downloads txs sd ed).Nodup ∧
    (sym, sd, ed) ∈ downloads txs sd ed ∧
    (∀ q ∈ downloads txs sd ed, q.2 = (sd, ed)) ∧
    (∀ s e : ℤ, get_stock_data_request s e = (s - 5, e)) := by
  have hinj : Function.Injective (fun s : String => (s, sd, ed)) := by
    intro a b hab
    simpa using hab
  refine ⟨?_, ?_, ?_, fun s e => rfl⟩
  · exact ((txs.map (·.symbol)).nodup_dedup).map hinj
  · exact List.mem_map.mpr ⟨sym, List.mem_dedup.mpr hmem, rfl⟩
  · intro q hq
    unfold downloads at hq
    rcases List.mem_map.mp hq with ⟨s, _, rfl⟩
    rfl

/-- Witness for C3 amended at a concrete input. -/
theorem C3_amended_witness :
    (downloads [⟨"AAPL", "Apple", 10, DateStr.valid 0, 100⟩]
        (DateStr.valid 100) (DateStr.valid 110)).Nodup ∧
    ("AAPL", DateStr.valid 100, DateStr.valid 110) ∈
      downloads [⟨"AAPL", "Apple", 10, DateStr.valid 0, 100⟩]
        (DateStr.valid 100) (DateStr.valid 110) :=
  ⟨(C3_amended [⟨"AAPL", "Apple", 10, DateStr.valid 0, 100⟩]
      (DateStr.valid 100) (DateStr.valid 110) "AAPL" (by decide)).1,
   (C3_amended [⟨"AAPL", "Apple", 10, DateStr.valid 0, 100⟩]
      (DateStr.valid 100) (DateStr.valid 110) "AAPL" (by decide)).2.1⟩

/-! ## C4: the annualized-return branch -/

/-- C4 counterexample: with `days = 1 > 0`, `initial = 100 > 0` and
`final = 0 ≤ initial`, the code reports `N/A` and carries
`annualized_return = 0`, whereas the claim's simple pro-rated formula
gives `−36500 ≠ 0`. -/
theorem C4_counterexample :
    annualized_calc 1 100 0 = (.na "N/A", 0) ∧
    (((0 - 100) / 100 : ℚ) : ℝ) * (365 / ((1 : ℤ) : ℝ)) * 100 = -36500 ∧
    (0 : ℝ) ≠ (-36500 : ℝ) := by
  refine ⟨?_, by norm_num, by norm_num⟩
  unfold annualized_calc
  rw [if_neg (by decide)]

/-- C4 amended: under the code's guard `days > 0`, `initial > 0` and
additionally `final > 0`, the annualized return is the compound formula
when `final > initial` and the simple pro-rated formula when
`final ≤ initial` (at `final = 0` the code instead reports `N/A`). -/
theorem C4_amended (days : ℤ) (initial final : ℚ)
    (hd : 0 < days) (hi : 0 < initial) (hf : 0 < final) :
    (initial < final →
      annualized_calc days initial final =
        (.pct ((((final : ℝ) / (initial : ℝ)) ^ (1 / ((days : ℝ) / 365)) - 1) * 100),
         (((final : ℝ) / (initial : ℝ)) ^ (1 / ((days : ℝ) / 365)) - 1) * 100)) ∧
    (final ≤ initial →
      annualized_calc days initial final =
        (.pct ((((final - initial) / initial : ℚ) : ℝ) * (365 / (days : ℝ)) * 100),
         (((final - initial) / initial : ℚ) : ℝ) * (365 / (days : ℝ)) * 100)) := by
  constructor
  · intro hlt
    unfold annualized_calc
    rw [if_pos ⟨hd, hi, hf⟩, if_pos hlt]
  · intro hle
    unfold annualized_calc
    rw [if_pos ⟨hd, hi, hf⟩, if_neg (not_lt.mpr hle)]

/-- Witness for C4 amended at a concrete input (simple branch). -/
theorem C4_amended_witness :
    annualized_calc 365 100 50 =
      (.pct ((((50 - 100) / 100 : ℚ) : ℝ) * (365 / ((365 : ℤ) : ℝ)) * 100),
       (((50 - 100) / 100 : ℚ) : ℝ) * (365 / ((365 : ℤ) : ℝ)) * 100) :=
  (C4_amended 365 100 50 (by norm_num) (by norm_num) (by norm_num)).2 (by norm_num)

/-! ## C7: the Calmar entry -/

/-- C7 counterexample: for the value path `[100, 0]` over one elapsed day
with a 100-cost basis, the max drawdown is `100% ≠ 0`, yet the Calmar
entry is the `N/A` sentinel (the code also requires
`annualized_return != 0`, and the annualized return is `0` here because
the final value is `0`). -/
theorem C7_counterexample :
    calmar_in_report [100, 0] 1 [⟨"AAPL", "Apple", 10, DateStr.valid 0, 10⟩] =
      some (.na "N/A") ∧
    calculate_max_drawdown [100, 0] * 100 = 100 ∧ (100 : ℚ) ≠ 0 := by
  have hmdd : calculate_max_drawdown [100, 0] = 1 := by
    norm_num [calculate_max_drawdown, List.foldl]
  refine ⟨?_, by rw [hmdd]; norm_num, by norm_num⟩
  have hdr : daily_returns_calc [100, 0] = [-1] := by
    norm_num [daily_returns_calc, List.range_succ, List.filter]
  have hinit : initial_investment_calc [⟨"AAPL", "Apple", 10, DateStr.valid 0, 10⟩] = 100 := by
    norm_num [initial_investment_calc]
  have hfin : final_value_calc [100, 0] = 0 := by
    norm_num [final_value_calc]
  have hann : (annualized_calc 1 100 0).2 = 0 := by
    unfold annualized_calc
    rw [if_neg (by decide)]
  simp only [calmar_in_report, hdr, hinit, hfin, hmdd]
  rw [if_neg (by norm_num), if_pos (by norm_num)]
  rw [hann]
  unfold calmar_entry
  rw [if_neg (by norm_num)]

/-- C7 amended: the Calmar entry is the absolute quotient of annualized
return by max drawdown when both the max drawdown and the annualized
return are non-zero, and the `N/A` sentinel exactly when the max drawdown
is zero or the annualized return is zero (the produced max drawdown is
never negative, by `calculate_max_drawdown_nonneg`). -/
theorem C7_amended (maxDD : ℚ) (ann : ℝ) (h : 0 ≤ maxDD) :
    (calmar_entry maxDD ann = .na "N/A" ↔ (maxDD = 0 ∨ ann = 0)) ∧
    (0 < maxDD → ann ≠ 0 → calmar_entry maxDD ann = .figure |ann / (maxDD : ℝ)|) ∧
    (∀ vals : List ℚ, 0 ≤ calculate_max_drawdown vals) := by
  refine ⟨?_, ?_, calculate_max_drawdown_nonneg⟩
  · unfold calmar_entry
    by_cases hc : 0 < maxDD ∧ ann ≠ 0
    · rw [if_pos hc]
      constructor
      · intro hfig
        exact absurd hfig (by simp)
      · intro hor
        rcases hor with h0 | h0
        · exact absurd h0 (ne_of_gt hc.1)
        · exact absurd h0 hc.2
    · rw [if_neg hc]
      constructor
      · intro _
        rcases not_and_or.mp hc with h0 | h0
        · exact Or.inl (le_antisymm (not_lt.mp h0) h)
        · exact Or.inr (not_not.mp h0)
      · intro _
        rfl
  · intro h1 h2
    unfold calmar_entry
    rw [if_pos ⟨h1, h2⟩]

/-- Witness for C7 amended at a concrete input. -/
theorem C7_amended_witness :
    calmar_entry 50 1 = .figure |(1 : ℝ) / ((50 : ℚ) : ℝ)| :=
  (C7_amended 50 1 (by norm_num)).2.1 (by norm_num) (by norm_num)

/-! ## C9: single-symbol portfolio concentration -/

/-- C9: for a portfolio with positive final value holding exactly one
symbol, the report's concentration section carries Gini value `1.00` and
diversity value `0.00` (the single-investment sentinels), and the
underlying helpers return exactly `1.0` and `0.0` on any singleton weight
list. -/
theorem C9_single_symbol (sym : String) (v final w : ℚ) (hf : 0 < final) :
    concentration_entries [(sym, v)] final =
      [("股票权重", .weightMap [(sym, v / final * 100)]),
       ("投资集中度(基尼系数)", .taggedFigure 1 "单一投资"),
       ("投资多样性(熵值)", .taggedFigure 0 "单一投资"),
       ("最大贡献", .text sym)] ∧
    calculate_gini_coefficient [w] = 1 ∧
    calculate_diversity_score [w] = 0 := by
  refine ⟨?_, ?_, ?_⟩
  · simp only [concentration_entries]
    rw [if_pos ⟨hf, by simp⟩]
    simp [maxByValue]
  · have hlen : (([w].map (· / 100)).mergeSort (fun a b => decide (a ≤ b))).length = 1 := by
      rw [List.length_mergeSort]
      rfl
    simp only [calculate_gini_coefficient]
    rw [if_pos (le_of_eq hlen)]
  · simp only [calculate_diversity_score]
    by_cases h : (0 : ℚ) < w / 100
    · rw [if_pos]
      simp [List.filter, h]
    · rw [if_pos]
      simp [List.filter, h]

/-- Witness for C9 at a concrete input. -/
theorem C9_single_symbol_witness :
    concentration_entries [("AAPL", (100 : ℚ))] 100 =
      [("股票权重", .weightMap [("AAPL", (100 : ℚ) / 100 * 100)]),
       ("投资集中度(基尼系数)", .taggedFigure 1 "单一投资"),
       ("投资多样性(熵值)", .taggedFigure 0 "单一投资"),
       ("最大贡献", .text "AAPL")] ∧
    calculate_gini_coefficient [37] = 1 ∧
    calculate_diversity_score [37] = 0 :=
  C9_single_symbol "AAPL" 100 100 37 (by norm_num)

/-! ## C8: the daily-return array -/

/-- The index-based selection of `np.where(daily_values[:-1] > 0)`
agrees with the pairwise description over consecutive value pairs. -/
theorem daily_returns_range_eq (vals : List ℚ) :
    ((List.range (vals.length - 1)).filter (fun i => decide (0 < vals.getD i 0))).map
      (fun i => (vals.getD (i + 1) 0 - vals.getD i 0) / vals.getD i 0)
    = daily_returns_spec vals := by
  induction vals with
  | nil => simp [daily_returns_spec]
  | cons a t ih =>
    cases t with
    | nil => simp [daily_returns_spec]
    | cons b t' =>
      rw [daily_returns_spec] at ih ⊢
      simp only [List.length_cons, Nat.add_sub_cancel] at ih ⊢
      rw [List.range_succ_eq_map, List.filter_cons]
      by_cases ha : (0 : ℚ) < a
      · rw [if_pos (by simpa using ha)]
        simp only [List.filter_map, List.map_cons, List.map_map, List.zip_cons_cons,
          List.filterMap_cons, List.tail_cons, Function.comp,
          List.getD_cons_succ, List.getD_cons_zero]
        rw [if_pos ha]
        simp only [List.tail_cons] at ih
        rw [← ih]
        rfl
      · rw [if_neg (by simpa using ha)]
        simp only [List.filter_map, List.map_map, List.zip_cons_cons,
          List.filterMap_cons, List.tail_cons, Function.comp,
          List.getD_cons_succ, List.getD_cons_zero]
        rw [if_neg ha]
        simp only [List.tail_cons] at ih
        rw [← ih]
        rfl

/-- C8: the daily-return array contains `(V[i] − V[i-1]) / V[i-1]`
exactly for the index pairs with `V[i-1] > 0`, in index order — that is,
the code's index-based computation equals the pairwise filter of the
consecutive-pair list. -/
theorem C8_daily_returns (vals : List ℚ) :
    daily_returns_calc vals = daily_returns_spec vals := by
  unfold daily_returns_calc
  split
  · exact daily_returns_range_eq vals
  · next h =>
    cases vals with
    | nil => simp [daily_returns_spec]
    | cons a t =>
      cases t with
      | nil => simp [daily_returns_spec]
      | cons b t' =>
        exact absurd (by simp) h

/-! ## C5: drawdown episodes -/

/-- C5 counterexample: on `[100, 90, 101, 101, 101]` an episode opens at
index 1 (drawdown 10% > 2%); at index 2 the value exceeds the old peak,
so the drawdown has fallen below 0.5%, and the claim predicts the episode
closes and is recorded — yet the code records nothing, because a new
running peak discards the open episode without recording it. -/
theorem C5_counterexample :
    calculate_detailed_drawdown_periods [100, 90, 101, 101, 101] = some [] ∧
    claim_drawdown_periods [100, 90, 101, 101, 101] = [⟨1, 2, 1 / 10⟩] ∧
    some ([] : List DDPeriod) ≠ some [(⟨1, 2, 1 / 10⟩ : DDPeriod)] := by
  refine ⟨?_, ?_, by simp⟩
  · norm_num [calculate_detailed_drawdown_periods, ddScan, ddStep, List.enum,
      List.enumFrom, List.foldl]
  · norm_num [claim_drawdown_periods, ddStepClaim, List.enum, List.enumFrom,
      List.foldl, depth_of, pyMax, List.range']

/-- C5 amended: an episode opens exactly when the drawdown exceeds 2% and
none is open; an open episode closes and is recorded when the drawdown
falls below 0.5% while the value stays at or below the running peak; a
value strictly above the running peak instead discards the open episode
without recording it; and an episode still open at the series end is
force-closed at the last index and recorded. -/
theorem C5_amended (vals : List ℚ) (s : DDState) (i st : ℕ) (v : ℚ) :
    (s.peak < v → ddStep vals s i v = { s with peak := v, ddStart := none }) ∧
    (s.ddStart = some st → 0 < s.peak → v ≤ s.peak →
      ((s.peak - v) / s.peak < 1 / 200 →
        ddStep vals s i v =
          { s with drawdowns := s.drawdowns ++ [(s.peak - v) / s.peak],
                   periods := s.periods ++ [⟨st, i, depth_of vals s.peak st i⟩],
                   ddStart := none }) ∧
      (¬ (s.peak - v) / s.peak < 1 / 200 →
        ddStep vals s i v = { s with drawdowns := s.drawdowns ++ [(s.peak - v) / s.peak] })) ∧
    (s.ddStart = none → 0 < s.peak → v ≤ s.peak → 1 / 50 < (s.peak - v) / s.peak →
      ddStep vals s i v =
        { s with drawdowns := s.drawdowns ++ [(s.peak - v) / s.peak], ddStart := some i }) ∧
    (5 ≤ vals.length → (ddScan vals).ddStart = some st →
      calculate_detailed_drawdown_periods vals =
        some ((ddScan vals).periods ++
          [⟨st, vals.length - 1, depth_of vals (ddScan vals).peak st (vals.length - 1)⟩])) := by
  obtain ⟨pk, ds, per, dd⟩ := s
  refine ⟨?_, ?_, ?_, ?_⟩
  · intro h
    simp only [ddStep]
    rw [if_pos h]
  · intro hopen hpk hle
    subst hopen
    constructor
    · intro hcd
      simp only [ddStep]
      rw [if_neg (not_lt.mpr hle), if_pos hpk]
      rw [if_pos hcd]
    · intro hcd
      simp only [ddStep]
      rw [if_neg (not_lt.mpr hle), if_pos hpk]
      rw [if_neg hcd]
  · intro hopen hpk hle hcd
    subst hopen
    dsimp only at hpk hle hcd
    simp only [ddStep]
    rw [if_neg (not_lt.mpr hle), if_pos hpk]
    rw [if_pos hcd]
    dsimp only
    rw [if_neg (show ¬ (pk - v) / pk < 1 / 200 from fun hlt => by linarith)]
  · intro h5 hsome
    simp only [calculate_detailed_drawdown_periods]
    rw [if_neg (not_lt.mpr h5)]
    rw [hsome]

/-- Witness for C5 amended: a concrete open episode (started at index 1)
closes and is recorded when the drawdown falls to 0.4% < 0.5%. -/
theorem C5_amended_witness :
    ddStep [100, 90, 996 / 10] ⟨100, some 1, [], [1 / 10]⟩ 2 (996 / 10) =
      { peak := 100, ddStart := none,
        periods := [⟨1, 2, depth_of [100, 90, 996 / 10] 100 1 2⟩],
        drawdowns := [1 / 10, (100 - 996 / 10) / 100] } := by
  have h := ((C5_amended [100, 90, 996 / 10] ⟨100, some 1, [], [1 / 10]⟩ 2 1
    (996 / 10)).2.1 rfl (by norm_num) (by norm_num)).1 (by norm_num)
  simpa using h

/-! ## C2: the aggregation fallback -/

/-- C2: `calculate_portfolio_value` is a total function of its inputs
(never raises), and whenever the aggregation fails — the start date, end
date, or any transaction's buy date fails to parse — it returns the
minimal one-row frame whose date is the start date as given, whose total
is `0.0`, and which has a zero column for each distinct transaction
symbol. -/
theorem C2_fallback (txs : List Transaction) (sd ed : DateStr)
    (data : String → List (ℤ × ℚ))
    (h : sd.parse = none ∨ ed.parse = none ∨
         txs.mapM (fun tx => tx.buyDate.parse) = none) :
    calculate_portfolio_value txs sd ed data = fallback_frame txs sd ∧
    (fallback_frame txs sd).symbols = (txs.map (·.symbol)).dedup ∧
    (fallback_frame txs sd).rows.length = 1 ∧
    ∀ r ∈ (fallback_frame txs sd).rows,
      r.date = sd ∧ r.total = 0 ∧ ∀ s, r.cell s = 0 := by
  refine ⟨?_, rfl, rfl, ?_⟩
  · unfold calculate_portfolio_value
    rcases h with h | h | h
    · rw [h]
    · rw [h]
      cases sd.parse <;> rfl
    · rw [h]
      cases sd.parse <;> cases ed.parse <;> rfl
  · intro r hr
    simp only [fallback_frame, List.mem_singleton] at hr
    subst hr
    exact ⟨rfl, rfl, fun s => rfl⟩

/-- Witness for C2 at a concrete unparseable start date. -/
theorem C2_fallback_witness :
    calculate_portfolio_value [] (DateStr.invalid "not-a-date") (DateStr.valid 0)
      (fun _ => []) = fallback_frame [] (DateStr.invalid "not-a-date") :=
  (C2_fallback [] (DateStr.invalid "not-a-date") (DateStr.valid 0) (fun _ => [])
    (Or.inl rfl)).1

/-! ## C1: TotalValue is the sum of the per-symbol columns -/

/-- Adding `v` at a column present exactly once in a duplicate-free
column list raises the column sum by exactly `v`. -/
theorem sum_map_update_cell (l : List String) (hnd : l.Nodup) (a : String)
    (ha : a ∈ l) (f : String → ℚ) (v : ℚ) :
    (l.map (fun s => if s = a then f s + v else f s)).sum = (l.map f).sum + v := by
  induction l with
  | nil => cases ha
  | cons b t ih =>
    rcases List.mem_cons.mp ha with hba | hat
    · subst hba
      have hnotin : a ∉ t := (List.nodup_cons.mp hnd).1
      simp only [List.map_cons, List.sum_cons, if_pos rfl]
      have : t.map (fun s => if s = a then f s + v else f s) = t.map f := by
        apply List.map_congr_left
        intro x hx
        rw [if_neg]
        intro hxb
        exact hnotin (hxb ▸ hx)
      rw [this]
      simp
      ring
    · have hba : b ≠ a := by
        intro hba
        subst hba
        exact (List.nodup_cons.mp hnd).1 hat
      simp only [List.map_cons, List.sum_cons, if_neg hba]
      rw [ih (List.nodup_cons.mp hnd).2 hat]
      ring

/-- `applyTxRow` preserves the row invariant "total equals the sum of the
cells over the symbol columns" whenever the transaction's symbol is one
of the (duplicate-free) columns. -/
theorem applyTxRow_inv (symbols : List String) (hnd : symbols.Nodup)
    (series : List (ℤ × ℚ)) (tx : Transaction) (bd : ℤ) (r : Row)
    (hmem : tx.symbol ∈ symbols)
    (h : r.total = (symbols.map r.cell).sum) :
    (applyTxRow series tx bd r).total =
      (symbols.map (applyTxRow series tx bd r).cell).sum := by
  unfold applyTxRow
  cases hd : r.date with
  | invalid s =>
    dsimp only
    exact h
  | valid d =>
    dsimp only
    by_cases hbd : bd ≤ d
    · rw [if_pos hbd]
      cases hf : find_closest_trading_date series d with
      | none =>
        dsimp only
        exact h
      | some p =>
        dsimp only
        rw [sum_map_update_cell symbols hnd tx.symbol hmem r.cell (tx.quantity * p.2)]
        rw [← h]
    · rw [if_neg hbd]
      exact h

/-- `applyTx` preserves the row invariant on every row. -/
theorem applyTx_inv (symbols : List String) (hnd : symbols.Nodup)
    (data : String → List (ℤ × ℚ)) (rows : List Row)
    (tx : Transaction) (bd : ℤ)
    (hmem : tx.symbol ∈ symbols)
    (h : ∀ r ∈ rows, r.total = (symbols.map r.cell).sum) :
    ∀ r ∈ applyTx data rows tx bd, r.total = (symbols.map r.cell).sum := by
  unfold applyTx
  split
  · exact h
  · intro r hr
    rcases List.mem_map.mp hr with ⟨r0, hr0, rfl⟩
    exact applyTxRow_inv symbols hnd _ tx bd r0 hmem (h r0 hr0)

/-- Folding the transaction loop over any starting row set preserves the
row invariant, provided every applied transaction's symbol is a column. -/
theorem foldl_applyTx_inv (symbols : List String) (hnd : symbols.Nodup)
    (data : String → List (ℤ × ℚ)) :
    ∀ (pairs : List (Transaction × ℤ)) (rows : List Row),
      (∀ p ∈ pairs, p.1.symbol ∈ symbols) →
      (∀ r ∈ rows, r.total = (symbols.map r.cell).sum) →
      ∀ r ∈ pairs.foldl (fun rs p => applyTx data rs p.1 p.2) rows,
        r.total = (symbols.map r.cell).sum := by
  intro pairs
  induction pairs with
  | nil => exact fun rows _ h => h
  | cons p t ih =>
    intro rows hp h
    rw [List.foldl_cons]
    exact ih _ (fun q hq => hp q (List.mem_cons_of_mem p hq))
      (applyTx_inv symbols hnd data rows p.1 p.2 (hp p (List.mem_cons_self p t)) h)

/-- C1: in every frame returned by `calculate_portfolio_value`, every
row's `TotalValue` equals the sum of that row's per-symbol columns. -/
theorem C1_total_eq_sum (txs : List Transaction) (sd ed : DateStr)
    (data : String → List (ℤ × ℚ)) (i : ℕ)
    (h : i < (calculate_portfolio_value txs sd ed data).rows.length) :
    ((calculate_portfolio_value txs sd ed data).rows.get ⟨i, h⟩).total =
      ((calculate_portfolio_value txs sd ed data).symbols.map
        ((calculate_portfolio_value txs sd ed data).rows.get ⟨i, h⟩).cell).sum := by
  suffices hall : ∀ r ∈ (calculate_portfolio_value txs sd ed data).rows,
      r.total = ((calculate_portfolio_value txs sd ed data).symbols.map r.cell).sum by
    exact hall _ (List.get_mem _ i h)
  intro r hr
  unfold calculate_portfolio_value at hr ⊢
  cases hsd : sd.parse with
  | none =>
    rw [hsd] at hr
    dsimp only at hr ⊢
    simp only [fallback_frame, List.mem_singleton] at hr
    subst hr
    simp [fallback_frame]
  | some s =>
    cases hed : ed.parse with
    | none =>
      rw [hsd, hed] at hr
      dsimp only at hr ⊢
      simp only [fallback_frame, List.mem_singleton] at hr
      subst hr
      simp [fallback_frame]
    | some e =>
      cases hbds : txs.mapM (fun tx => tx.buyDate.parse) with
      | none =>
        rw [hsd, hed, hbds] at hr
        dsimp only at hr ⊢
        simp only [fallback_frame, List.mem_singleton] at hr
        subst hr
        simp [fallback_frame]
      | some bds =>
        rw [hsd, hed, hbds] at hr
        dsimp only at hr ⊢
        refine foldl_applyTx_inv ((txs.map (·.symbol)).dedup)
          ((txs.map (·.symbol)).nodup_dedup) data (txs.zip bds) _ ?_ ?_ r hr
        · intro p hp
          exact List.mem_dedup.mpr
            (List.mem_map.mpr ⟨p.1, (List.of_mem_zip hp).1, rfl⟩)
        · intro r0 hr0
          rcases List.mem_map.mp hr0 with ⟨d, _, rfl⟩
          simp

/-- Witness for C1 at a concrete frame row. -/
theorem C1_total_eq_sum_witness :
    0 < (calculate_portfolio_value [] (DateStr.valid 0) (DateStr.valid 0)
          (fun _ => [])).rows.length ∧
    (((calculate_portfolio_value [] (DateStr.valid 0) (DateStr.valid 0)
        (fun _ => [])).rows.get ⟨0, by decide⟩).total =
      (((calculate_portfolio_value [] (DateStr.valid 0) (DateStr.valid 0)
          (fun _ => [])).symbols).map
        ((calculate_portfolio_value [] (DateStr.valid 0) (DateStr.valid 0)
            (fun _ => [])).rows.get
          ⟨0, by decide⟩).cell).sum) :=
  ⟨by decide,
   C1_total_eq_sum [] (DateStr.valid 0) (DateStr.valid 0) (fun _ => []) 0
     (by decide)⟩

/-! ## C6: rolling-window metrics -/

/-- When the series reaches the window and some window position has
positive sample variance, `calculate_rolling_metrics` succeeds and its
entry list leads with the rolling annualized-return key. -/
theorem rolling_metrics_ok (dr : List ℚ) (w : ℕ) (hw : w ≤ dr.length)
    (hpos : ∃ i ∈ List.range' (w - 1) (dr.length - w + 1),
      0 < sampleVar (windowAt dr w i)) :
    ∃ l, calculate_rolling_metrics dr w = .ok l ∧
      (toString w ++ "日滚动年化收益") ∈ l.map Prod.fst := by
  obtain ⟨i, hi, hv⟩ := hpos
  have hstd : (0 : ℝ) < rollingStd dr w i := by
    unfold rollingStd
    exact Real.sqrt_pos.mpr (by exact_mod_cast hv)
  have hmem : i ∈ (List.range' (w - 1) (dr.length - w + 1)).filter
      (fun j => decide (0 < rollingStd dr w j)) :=
    List.mem_filter.mpr ⟨hi, decide_eq_true hstd⟩
  simp only [calculate_rolling_metrics]
  rw [if_neg (not_lt.mpr hw)]
  cases hpv : (List.range' (w - 1) (dr.length - w + 1)).filter
      (fun j => decide (0 < rollingStd dr w j)) with
  | nil =>
    rw [hpv] at hmem
    cases hmem
  | cons a rest =>
    have hvalid : List.range' (w - 1) (dr.length - w + 1) =
        (w - 1) :: List.range' (w - 1 + 1) (dr.length - w) := by
      have : dr.length - w + 1 = (dr.length - w) + 1 := rfl
      rw [this, List.range'_succ]
    rw [hvalid]
    dsimp only [idxminAt, idxmaxAt]
    refine ⟨_, rfl, ?_⟩
    simp

/-- A successful (non-marker) result of `calculate_rolling_metrics` has
at least 3 entries, whereas the insufficient-data marker is a singleton:
the marker appears exactly for series shorter than the window. -/
theorem rolling_metrics_ok_length (dr : List ℚ) (w : ℕ) (hw : w ≤ dr.length) :
    ∀ l, calculate_rolling_metrics dr w = .ok l → 3 ≤ l.length := by
  simp only [calculate_rolling_metrics]
  rw [if_neg (not_lt.mpr hw)]
  cases hpv : (List.range' (w - 1) (dr.length - w + 1)).filter
      (fun j => decide (0 < rollingStd dr w j)) with
  | nil =>
    dsimp only [idxminAt]
    intro l hl
    cases hl
  | cons a rest =>
    have hvalid : List.range' (w - 1) (dr.length - w + 1) =
        (w - 1) :: List.range' (w - 1 + 1) (dr.length - w) := by
      have : dr.length - w + 1 = (dr.length - w) + 1 := rfl
      rw [this, List.range'_succ]
    rw [hvalid]
    dsimp only [idxminAt, idxmaxAt]
    intro l hl
    cases hl
    simp

/-- For a series shorter than the window, `calculate_rolling_metrics`
returns exactly the insufficient-data marker. -/
theorem rolling_metrics_marker (dr : List ℚ) (w : ℕ) (hw : dr.length < w) :
    calculate_rolling_metrics dr w =
      .ok [(toString w ++ "日滚动分析", .info "数据点不足")] := by
  simp only [calculate_rolling_metrics]
  rw [if_pos hw]

/-- When every applied window size has a positive-variance position, the
report's rolling section succeeds and carries the 20-day rolling
annualized-return key. -/
theorem rolling_section_ok (dr : List ℚ) (h20 : 20 ≤ dr.length)
    (hv20 : ∃ i ∈ List.range' (20 - 1) (dr.length - 20 + 1),
      0 < sampleVar (windowAt dr 20 i))
    (hv60 : 60 ≤ dr.length → ∃ i ∈ List.range' (60 - 1) (dr.length - 60 + 1),
      0 < sampleVar (windowAt dr 60 i)) :
    ∃ l, rolling_section dr = .ok l ∧
      (toString 20 ++ "日滚动年化收益") ∈ l.map Prod.fst := by
  obtain ⟨l20, hl20, hk20⟩ := rolling_metrics_ok dr 20 h20 hv20
  simp only [rolling_section]
  rw [if_pos h20, hl20]
  dsimp only
  by_cases h60 : 60 ≤ dr.length
  · obtain ⟨l60, hl60, hk60⟩ := rolling_metrics_ok dr 60 h60 (hv60 h60)
    rw [if_pos h60, hl60]
    exact ⟨l20 ++ l60, rfl,
      by simp only [List.map_append, List.mem_append]; exact Or.inl hk20⟩
  · rw [if_neg h60]
    exact ⟨l20, rfl, hk20⟩

/-- Every 20-window of the all-zero series of length 20 has zero rolling
standard deviation. -/
theorem replicate_std_zero :
    rollingStd (List.replicate 20 (0 : ℚ)) 20 19 = 0 := by
  have hwin : windowAt (List.replicate 20 (0 : ℚ)) 20 19 = List.replicate 20 (0 : ℚ) := by
    simp [windowAt]
  have hvar : sampleVar (List.replicate 20 (0 : ℚ)) = 0 := by
    simp [sampleVar, qmean]
  rw [rollingStd, hwin, hvar]
  simp

/-- C6 counterexample: a constant (zero-variance) daily-return series of
length 20 reaches the 20-day rolling computation, where
`rolling_std[rolling_std > 0].idxmin()` is taken over an empty series and
raises `ValueError`: no rolling metrics (and no report) are produced,
refuting "for every series of length at least 20, the 20-day rolling
metrics are present in the report". -/
theorem C6_counterexample :
    (List.replicate 20 (0 : ℚ)).length = 20 ∧
    rolling_section (List.replicate 20 (0 : ℚ)) =
      .error "attempt to get argmin of an empty sequence" := by
  refine ⟨by simp, ?_⟩
  have hlen : (List.replicate 20 (0 : ℚ)).length = 20 := by simp
  have hfalse : decide (0 < rollingStd (List.replicate 20 (0 : ℚ)) 20 19) = false :=
    decide_eq_false (by rw [replicate_std_zero]; exact lt_irrefl 0)
  simp only [rolling_section, hlen]
  rw [if_pos (by norm_num)]
  have hcrm : calculate_rolling_metrics (List.replicate 20 (0 : ℚ)) 20 =
      .error "attempt to get argmin of an empty sequence" := by
    simp only [calculate_rolling_metrics, hlen]
    rw [if_neg (by norm_num)]
    have hval : List.range' (20 - 1) (20 - 20 + 1) = [19] := by decide
    rw [hval]
    have hpv : [19].filter (fun j => decide (0 < rollingStd (List.replicate 20 (0 : ℚ)) 20 j)) =
        [] := by
      simp only [List.filter_cons, List.filter_nil, hfalse]
      simp
    rw [hpv]
    rfl
  rw [hcrm]

/-- C6 amended: `calculate_rolling_metrics` returns the insufficient-data
marker exactly when the series is shorter than the window (a successful
result instead has at least 3 entries); and the report's rolling section
(invoked at windows 20 and 60) contains the 20-day rolling metrics for
every series of length at least 20 provided each applied window size has
some window of positive sample variance — a series whose applied windows
all have zero variance instead raises on an empty `idxmin` and yields no
metrics. -/
theorem C6_amended (dr : List ℚ) (w : ℕ) :
    (dr.length < w →
      calculate_rolling_metrics dr w =
        .ok [(toString w ++ "日滚动分析", .info "数据点不足")]) ∧
    (w ≤ dr.length → ∀ l, calculate_rolling_metrics dr w = .ok l → 3 ≤ l.length) ∧
    (20 ≤ dr.length →
      (∃ i ∈ List.range' (20 - 1) (dr.length - 20 + 1),
        0 < sampleVar (windowAt dr 20 i)) →
      (60 ≤ dr.length → ∃ i ∈ List.range' (60 - 1) (dr.length - 60 + 1),
        0 < sampleVar (windowAt dr 60 i)) →
      ∃ l, rolling_section dr = .ok l ∧
        (toString 20 ++ "日滚动年化收益") ∈ l.map Prod.fst) :=
  ⟨fun h => rolling_metrics_marker dr w h,
   fun h => rolling_metrics_ok_length dr w h,
   fun h20 hv20 hv60 => rolling_section_ok dr h20 hv20 hv60⟩

/-- Witness for C6 amended: a length-20 return series with one non-zero
entry has its 20-day rolling metrics present. -/
theorem C6_amended_witness :
    ∃ l, rolling_section (1 :: List.replicate 19 (0 : ℚ)) = .ok l ∧
      (toString 20 ++ "日滚动年化收益") ∈ l.map Prod.fst :=
  (C6_amended (1 :: List.replicate 19 (0 : ℚ)) 20).2.2 (by simp)
    ⟨19, by decide, by
      have hwin : windowAt (1 :: List.replicate 19 (0 : ℚ)) 20 19 =
          1 :: List.replicate 19 (0 : ℚ) := by
        simp [windowAt]
      rw [hwin]
      norm_num [sampleVar, qmean]⟩
    (fun h => absurd h (by simp))
